import Mathlib

/-!
Verification of the protocol/trust core of a Gemini client:
status classification, response-header decoding, the redirect loop,
and the TOFU (trust-on-first-use) certificate store.

Modelling conventions:
* Go `int` is modelled as `Int`; Go integer division truncates toward
  zero, which is `Int.tdiv`.
* Go strings are byte strings; header lines and meta strings are
  modelled as `List Char` restricted to single-byte (ASCII) characters,
  so `List.length` coincides with Go's `len` (bytes) on the inputs the
  protocol produces.
* `time.Time` values are modelled as abstract instants (`Nat`); the
  current time is passed in explicitly where the source calls
  `time.Now()`.
* The SHA-256 certificate digest (`certificateFingerprint`) is
  abstracted as an arbitrary function `fingerprintOf : GCert → String`
  over which all theorems quantify.
* The JSON encoding performed by the standard library (`encoding/json`)
  is modelled by an explicit tree type `JValue` with field lookup by
  name, mirroring the struct tags of `CertificateInfo` and `KnownHosts`.
-/

/-! ### Status classifier (internal/protocol/status.go) -/

/-- Go type `StatusCode int`. -/
abbrev StatusCode := Int

/-- Go type `StatusCategory int`. -/
abbrev StatusCategory := Int

def CategoryInput : StatusCategory := 1

def CategorySuccess : StatusCategory := 2

def CategoryRedirect : StatusCategory := 3

def CategoryTemporaryFailure : StatusCategory := 4

def CategoryPermanentFailure : StatusCategory := 5

def CategoryClientCertificate : StatusCategory := 6

/-- `func (s StatusCode) Category() StatusCategory { return StatusCategory(s / 10) }`;
Go `/` on `int` truncates toward zero, i.e. `Int.tdiv`. -/
def StatusCode.Category (s : StatusCode) : StatusCategory :=
  s.tdiv 10

/-- `func (s StatusCode) IsInput() bool`. -/
def StatusCode.IsInput (s : StatusCode) : Bool :=
  StatusCode.Category s == CategoryInput

/-- `func (s StatusCode) IsSuccess() bool`. -/
def StatusCode.IsSuccess (s : StatusCode) : Bool :=
  StatusCode.Category s == CategorySuccess

/-- `func (s StatusCode) IsRedirect() bool`. -/
def StatusCode.IsRedirect (s : StatusCode) : Bool :=
  StatusCode.Category s == CategoryRedirect

/-- `func (s StatusCode) IsTemporaryFailure() bool`. -/
def StatusCode.IsTemporaryFailure (s : StatusCode) : Bool :=
  StatusCode.Category s == CategoryTemporaryFailure

/-- `func (s StatusCode) IsPermanentFailure() bool`. -/
def StatusCode.IsPermanentFailure (s : StatusCode) : Bool :=
  StatusCode.Category s == CategoryPermanentFailure

/-- `func (s StatusCode) IsClientCertificate() bool`. -/
def StatusCode.IsClientCertificate (s : StatusCode) : Bool :=
  StatusCode.Category s == CategoryClientCertificate

/-- `func (s StatusCode) IsError() bool { return s.IsTemporaryFailure() || s.IsPermanentFailure() }`. -/
def StatusCode.IsError (s : StatusCode) : Bool :=
  StatusCode.IsTemporaryFailure s || StatusCode.IsPermanentFailure s

/-- C7: every status code in [10,69] has category `c / 10`, satisfies exactly
one of the six category predicates, and `IsError` holds exactly when the
category is TemporaryFailure or PermanentFailure; undefined codes inside a
valid category classify by the same rule. -/
theorem statusCode_classification (c : StatusCode) (h1 : 10 ≤ c) (h2 : c ≤ 69) :
    StatusCode.Category c = c / 10
    ∧ ([StatusCode.IsInput c, StatusCode.IsSuccess c, StatusCode.IsRedirect c,
        StatusCode.IsTemporaryFailure c, StatusCode.IsPermanentFailure c,
        StatusCode.IsClientCertificate c].count true = 1)
    ∧ (StatusCode.IsError c = true ↔
        (StatusCode.Category c = CategoryTemporaryFailure
          ∨ StatusCode.Category c = CategoryPermanentFailure)) := by
  interval_cases c <;> decide

/-- Witness for C7 at the concrete undefined-but-classifiable code 47. -/
theorem statusCode_classification_witness :
    StatusCode.Category 47 = 47 / 10
    ∧ ([StatusCode.IsInput 47, StatusCode.IsSuccess 47, StatusCode.IsRedirect 47,
        StatusCode.IsTemporaryFailure 47, StatusCode.IsPermanentFailure 47,
        StatusCode.IsClientCertificate 47].count true = 1)
    ∧ (StatusCode.IsError 47 = true ↔
        (StatusCode.Category 47 = CategoryTemporaryFailure
          ∨ StatusCode.Category 47 = CategoryPermanentFailure)) :=
  statusCode_classification 47 (by decide) (by decide)

/-! ### Response decoder (internal/protocol/response.go) -/

/-- Failure modes of `ParseResponseHeader` and `parseStatus`, one constructor
per `fmt.Errorf` in the source, each carrying the datum the message names. -/
inductive HeaderError where
  /-- "invalid status code length: %d (expected 2)" -/
  | invalidStatusLength (n : Nat)
  /-- "invalid status code: %s" -/
  | invalidStatusCode (s : List Char)
  /-- "status code out of range: %d (expected 10-69)" -/
  | statusOutOfRange (code : Int)
  /-- "meta string too long: %d bytes (max 1024)" -/
  | metaTooLong (n : Nat)
  deriving DecidableEq, Repr

/-- The spec's `MalformedHeader` error kind: any `parseStatus` failure
(as opposed to `MetaTooLong`). -/
def HeaderError.isMalformedHeader : HeaderError → Bool
  | .metaTooLong _ => false
  | _ => true

/-- One decimal digit of `strconv.Atoi`. -/
def digitVal (c : Char) : Option Nat :=
  if '0' ≤ c ∧ c ≤ '9' then some (c.toNat - '0'.toNat) else none

def digitsToNatAux : List Char → Nat → Option Nat
  | [], acc => some acc
  | c :: rest, acc =>
    match digitVal c with
    | none => none
    | some d => digitsToNatAux rest (acc * 10 + d)

/-- The all-digits run of `strconv.Atoi`: fails on the empty string or any
non-digit character. -/
def digitsToNat : List Char → Option Nat
  | [] => none
  | c :: rest => digitsToNatAux (c :: rest) 0

/-- `strconv.Atoi`: optional leading sign, then one or more decimal digits
(overflow cannot occur on the short strings the decoder feeds it). -/
def goAtoi (s : List Char) : Option Int :=
  match s with
  | '+' :: rest => (digitsToNat rest).map Int.ofNat
  | '-' :: rest => (digitsToNat rest).map (fun n => -(n : Int))
  | _ => (digitsToNat s).map Int.ofNat

/-- `func parseStatus(s string) (StatusCode, error)`:
length must be exactly 2, content numeric, value in [10,69]. -/
def parseStatus (s : List Char) : Except HeaderError StatusCode :=
  if s.length ≠ 2 then
    .error (.invalidStatusLength s.length)
  else
    match goAtoi s with
    | none => .error (.invalidStatusCode s)
    | some code =>
      if code < 10 ∨ code > 69 then .error (.statusOutOfRange code)
      else .ok code

/-- `strings.TrimRight(line, "\r\n")`: strip every trailing CR or LF. -/
def trimRightCRLF (line : List Char) : List Char :=
  (line.reverse.dropWhile (fun c => c == '\r' || c == '\n')).reverse

/-- `func ParseResponseHeader(line string) (StatusCode, string, error)`:
strip trailing CR/LF; if the line has no space, leniently parse the whole
line as the status with empty meta; otherwise the token before the first
space is the status and the rest is the meta, rejected when longer than
1024 bytes. -/
def ParseResponseHeader (line : List Char) : Except HeaderError (StatusCode × List Char) :=
  let line := trimRightCRLF line
  if line.contains ' ' then
    let statusStr := line.takeWhile (fun c => c != ' ')
    match parseStatus statusStr with
    | .error e => .error e
    | .ok status =>
      let meta := line.drop (statusStr.length + 1)
      if meta.length > 1024 then .error (.metaTooLong meta.length)
      else .ok (status, meta)
  else
    match parseStatus line with
    | .error e => .error e
    | .ok status => .ok (status, [])

/-- The status token of a header line: everything before the first space of
the CR/LF-stripped line, or the whole stripped line when it has no space. -/
def statusTokenOf (line : List Char) : List Char :=
  (trimRightCRLF line).takeWhile (fun c => c != ' ')

/-- The meta string of a header line: everything after the first space of the
CR/LF-stripped line, or empty when it has no space. -/
def metaOf (line : List Char) : List Char :=
  let l := trimRightCRLF line
  if l.contains ' ' then l.drop ((l.takeWhile (fun c => c != ' ')).length + 1) else []

/-- Whether an `Except` computation succeeded. -/
def exceptOk {ε α : Type} : Except ε α → Bool
  | .ok _ => true
  | .error _ => false

/-- The `Response` struct: status, meta, optional body stream, originating
URL. `body = some s` models a non-nil `Body` wrapping the unread stream. -/
structure GResponse where
  status : StatusCode
  meta : List Char
  body : Option (List Char)
  url : List Char
  deriving DecidableEq, Repr

/-- Failure modes of `ReadResponse`. -/
inductive ReadRespError where
  /-- "failed to read response header": `ReadString('\n')` hit EOF first. -/
  | headerReadFailed
  /-- "failed to parse response header". -/
  | headerParseFailed (e : HeaderError)
  deriving DecidableEq, Repr

/-- Failure mode of `Response.ReadBody`: "no response body". -/
inductive BodyError where
  | noBody
  deriving DecidableEq, Repr

/-- `bufio.Reader.ReadString('\n')`: the line up to and including the first
LF together with the rest of the stream; `none` when the stream ends with
no LF (Go returns an error then, and `ReadResponse` fails). -/
def readLineLF : List Char → Option (List Char × List Char)
  | [] => none
  | c :: rest =>
    if c = '\n' then some ([c], rest)
    else
      match readLineLF rest with
      | none => none
      | some (l, r) => some (c :: l, r)

/-- `func ReadResponse(r io.Reader, url string) (*Response, error)`:
read the header line, parse it, and attach the remaining stream as the
body only for Success statuses. -/
def ReadResponse (stream : List Char) (url : List Char) : Except ReadRespError GResponse :=
  match readLineLF stream with
  | none => .error .headerReadFailed
  | some (headerLine, rest) =>
    match ParseResponseHeader headerLine with
    | .error e => .error (.headerParseFailed e)
    | .ok (status, meta) =>
      .ok { status := status, meta := meta, url := url,
            body := if StatusCode.IsSuccess status then some rest else none }

/-- `func (r *Response) ReadBody() ([]byte, error)`: fails with the
`NoBody` error when `Body` is nil, else yields the whole stream. -/
def GResponse.ReadBody (r : GResponse) : Except BodyError (List Char) :=
  match r.body with
  | none => .error .noBody
  | some b => .ok b

/-- Characters of the CR/LF-stripped line are characters of the line. -/
theorem mem_of_mem_trimRightCRLF {c : Char} {l : List Char} :
    c ∈ trimRightCRLF l → c ∈ l := by
  intro h
  simp only [trimRightCRLF, List.mem_reverse] at h
  have := (List.dropWhile_sublist (l := l.reverse)
    (p := fun c => c == '\r' || c == '\n')).mem h
  simpa using this

/-- On a line with no space, the status-token scan keeps the whole line. -/
theorem takeWhile_ne_space_of_not_mem :
    ∀ l : List Char, ' ' ∉ l → l.takeWhile (fun c => c != ' ') = l := by
  intro l
  induction l with
  | nil => intro _; rfl
  | cons c rest ih =>
    intro h
    simp only [List.mem_cons, not_or] at h
    have hc : (c != ' ') = true := by
      simp [bne_iff_ne]
      exact fun hcc => h.1 hcc.symm
    simp [List.takeWhile_cons, hc, ih h.2]

/-- Every `parseStatus` failure is of the spec's `MalformedHeader` kind. -/
theorem parseStatus_error_malformed :
    ∀ (s : List Char) (e : HeaderError),
      parseStatus s = .error e → HeaderError.isMalformedHeader e = true := by
  intro s e h
  unfold parseStatus at h
  split at h
  · cases h; rfl
  · split at h
    · cases h; rfl
    · split at h
      · cases h; rfl
      · cases h

set_option maxRecDepth 20000 in
/-- C5: `ParseResponseHeader` fails exactly when the status token is malformed
(wrong length, non-numeric, or out of [10,69] — a `MalformedHeader`-kind
error built from the offending token) or the meta string exceeds 1024 bytes
(`MetaTooLong`); concretely, the header "9 x\r\n" is rejected for its
one-character token, a 1024-byte meta is accepted, and a 1025-byte meta is
rejected. -/
theorem parseResponseHeader_failure_modes :
    (∀ line : List Char,
      (exceptOk (ParseResponseHeader line) = false ↔
        exceptOk (parseStatus (statusTokenOf line)) = false ∨ 1024 < (metaOf line).length)
      ∧ (∀ e, parseStatus (statusTokenOf line) = .error e →
          ParseResponseHeader line = .error e ∧ HeaderError.isMalformedHeader e = true)
      ∧ (∀ s, parseStatus (statusTokenOf line) = .ok s → 1024 < (metaOf line).length →
          ParseResponseHeader line = .error (.metaTooLong (metaOf line).length)))
    ∧ ParseResponseHeader ['9', ' ', 'x', '\r', '\n'] = .error (.invalidStatusLength 1)
    ∧ ParseResponseHeader (['2', '0', ' '] ++ List.replicate 1024 'x')
        = .ok (20, List.replicate 1024 'x')
    ∧ ParseResponseHeader (['2', '0', ' '] ++ List.replicate 1025 'x')
        = .error (.metaTooLong 1025) := by
  refine ⟨?_, by rfl, by rfl, by rfl⟩
  intro line
  by_cases hm : ' ' ∈ trimRightCRLF line
  · have htok : statusTokenOf line = (trimRightCRLF line).takeWhile (fun c => c != ' ') := rfl
    have hmeta : metaOf line
        = (trimRightCRLF line).drop
            (((trimRightCRLF line).takeWhile (fun c => c != ' ')).length + 1) := by
      simp [metaOf, hm]
    cases hps : parseStatus ((trimRightCRLF line).takeWhile (fun c => c != ' ')) with
    | error e =>
      refine ⟨?_, ?_, ?_⟩
      · simp [ParseResponseHeader, hm, hps, htok, exceptOk]
      · intro e' he'
        rw [htok, hps] at he'
        cases he'
        exact ⟨by simp [ParseResponseHeader, hm, hps], parseStatus_error_malformed _ _ hps⟩
      · intro s hs
        rw [htok, hps] at hs
        cases hs
    | ok s =>
      rw [hmeta]
      by_cases hlen :
          1024 < ((trimRightCRLF line).drop
            (((trimRightCRLF line).takeWhile (fun c => c != ' ')).length + 1)).length
      · refine ⟨?_, ?_, ?_⟩
        · constructor
          · intro _
            right
            exact hlen
          · intro _
            simp only [ParseResponseHeader, hm, hps]
            have hlen' := hlen
            simp only [List.length_drop] at hlen'
            simp [hlen', hm, exceptOk]
        · intro e' he'
          rw [htok, hps] at he'
          cases he'
        · intro s' hs' _
          have hlen' := hlen
          simp only [List.length_drop] at hlen'
          simp [ParseResponseHeader, hm, hps, hlen']
      · refine ⟨?_, ?_, ?_⟩
        · constructor
          · intro hbad
            have hlen' : ¬ 1024 <
                (trimRightCRLF line).length -
                  (((trimRightCRLF line).takeWhile (fun c => c != ' ')).length + 1) := by
              intro hgt
              apply hlen
              simp only [List.length_drop]
              exact hgt
            simp [ParseResponseHeader, hm, hps, hlen', exceptOk] at hbad
          · intro hor
            rcases hor with h1 | h2
            · rw [htok, hps] at h1
              simp [exceptOk] at h1
            · exact absurd h2 hlen
        · intro e' he'
          rw [htok, hps] at he'
          cases he'
        · intro s' _ hbad
          exact absurd hbad hlen
  · have htok : statusTokenOf line = trimRightCRLF line := by
      simp [statusTokenOf, takeWhile_ne_space_of_not_mem _ hm]
    have hmeta : metaOf line = [] := by
      simp only [metaOf]
      rw [if_neg]
      simp [hm]
    cases hps : parseStatus (trimRightCRLF line) with
    | error e =>
      refine ⟨?_, ?_, ?_⟩
      · simp [ParseResponseHeader, hm, hps, htok, hmeta, exceptOk]
      · intro e' he'
        rw [htok, hps] at he'
        cases he'
        exact ⟨by simp [ParseResponseHeader, hm, hps], parseStatus_error_malformed _ _ hps⟩
      · intro s hs
        rw [htok, hps] at hs
        rw [hmeta]
        intro hbad
        simp at hbad
    | ok s =>
      refine ⟨?_, ?_, ?_⟩
      · simp [ParseResponseHeader, hm, hps, htok, hmeta, exceptOk]
      · intro e' he'
        rw [htok, hps] at he'
        cases he'
      · intro s' _ hbad
        rw [hmeta] at hbad
        simp at hbad

/-- Witness for C5: the header "xy m" fails with the malformed-header error
built from its non-numeric token "xy". -/
theorem parseResponseHeader_failure_modes_witness :
    ParseResponseHeader ['x', 'y', ' ', 'm'] = .error (.invalidStatusCode ['x', 'y'])
    ∧ HeaderError.isMalformedHeader (.invalidStatusCode ['x', 'y']) = true :=
  (parseResponseHeader_failure_modes.1 ['x', 'y', ' ', 'm']).2.1
    (.invalidStatusCode ['x', 'y']) (by rfl)

/-- C8: a header line with no space is parsed leniently — the whole
CR/LF-stripped line is the status token, and when it parses as a valid
status the result is that status with an empty meta string. -/
theorem parseResponseHeader_noSpace_lenient :
    ∀ line : List Char, ' ' ∉ line →
      statusTokenOf line = trimRightCRLF line
      ∧ ∀ s : StatusCode, parseStatus (trimRightCRLF line) = .ok s →
          ParseResponseHeader line = .ok (s, []) := by
  intro line hline
  have hm : ' ' ∉ trimRightCRLF line := fun h => hline (mem_of_mem_trimRightCRLF h)
  constructor
  · simp [statusTokenOf, takeWhile_ne_space_of_not_mem _ hm]
  · intro s hs
    simp [ParseResponseHeader, hm, hs]

/-- Witness for C8: the spaceless header "20\r\n" parses to status 20 with
empty meta. -/
theorem parseResponseHeader_noSpace_lenient_witness :
    statusTokenOf ['2', '0', '\r', '\n'] = trimRightCRLF ['2', '0', '\r', '\n']
    ∧ ParseResponseHeader ['2', '0', '\r', '\n'] = .ok (20, []) :=
  ⟨(parseResponseHeader_noSpace_lenient ['2', '0', '\r', '\n'] (by decide)).1,
   (parseResponseHeader_noSpace_lenient ['2', '0', '\r', '\n'] (by decide)).2 20 (by rfl)⟩

/-- C6: a parsed response carries a body exactly when its status is in the
Success category; for every non-success status the body is absent and
`ReadBody` fails with the `NoBody` error. -/
theorem readResponse_body_iff_success :
    ∀ (stream url : List Char) (resp : GResponse),
      ReadResponse stream url = .ok resp →
      resp.body.isSome = StatusCode.IsSuccess resp.status
      ∧ (StatusCode.IsSuccess resp.status = false →
          resp.body = none ∧ GResponse.ReadBody resp = .error .noBody) := by
  intro stream url resp h
  unfold ReadResponse at h
  cases hl : readLineLF stream with
  | none => rw [hl] at h; cases h
  | some pr =>
    rw [hl] at h
    obtain ⟨headerLine, rest⟩ := pr
    dsimp only at h
    cases hp : ParseResponseHeader headerLine with
    | error e => rw [hp] at h; cases h
    | ok sm =>
      rw [hp] at h
      obtain ⟨status, meta⟩ := sm
      cases h
      by_cases hs : StatusCode.IsSuccess status = true
      · simp [hs, GResponse.ReadBody]
      · have hs' : StatusCode.IsSuccess status = false := by simpa using hs
        simp [hs', GResponse.ReadBody]

/-- Witness for C6: the status-51 response parsed from "51 nf\nx" has no
body and `ReadBody` on it fails with the `NoBody` error. -/
theorem readResponse_body_iff_success_witness :
    (⟨51, ['n', 'f'], none, ['u']⟩ : GResponse).body = none
    ∧ GResponse.ReadBody ⟨51, ['n', 'f'], none, ['u']⟩ = .error .noBody :=
  (readResponse_body_iff_success ['5', '1', ' ', 'n', 'f', '\n', 'x'] ['u']
    ⟨51, ['n', 'f'], none, ['u']⟩ (by rfl)).2 (by rfl)

/-! ### Protocol client redirect loop (internal/protocol/client.go) -/

/-- The caller-configurable parts of `Client` that the redirect loop reads:
`FollowRedirects` and `MaxRedirects`. -/
structure GClient where
  followRedirects : Bool
  maxRedirects : Nat

/-- Terminal errors of the redirect loop in `Client.get`. -/
inductive FetchError where
  /-- "too many redirects (max %d)" -/
  | tooManyRedirects
  /-- "redirect without URL" -/
  | redirectMissingURL
  deriving DecidableEq, Repr

/-- The redirect control loop of `func (c *Client) get(rawURL string,
redirectCount int)`. The per-connection work — scheme check, TLS dial, TOFU
verification, request write, and `ReadResponse` — is abstracted into
`serve`, which yields the (status, meta) pair read for a URL, and
`net/url` resolution (`resolveURL`) is abstracted into `resolve`. On a
Redirect-category status the loop returns the raw response when redirect
following is off, fails with `tooManyRedirects` when the counter has
reached `maxRedirects`, fails with `redirectMissingURL` on an empty meta,
and otherwise recurses on the resolved target with the counter bumped. -/
def clientGet (c : GClient) (serve : List Char → StatusCode × List Char)
    (resolve : List Char → List Char → List Char)
    (rawURL : List Char) (redirectCount : Nat) :
    Except FetchError (StatusCode × List Char) :=
  let resp := serve rawURL
  if StatusCode.IsRedirect resp.1 then
    if c.followRedirects = false then .ok resp
    else if h : c.maxRedirects ≤ redirectCount then .error .tooManyRedirects
    else if resp.2 = [] then .error .redirectMissingURL
    else clientGet c serve resolve (resolve rawURL resp.2) (redirectCount + 1)
  else .ok resp
termination_by c.maxRedirects - redirectCount
decreasing_by omega

/-- The URL reached after following `n` redirect responses from `u`. -/
def chainURL (serve : List Char → StatusCode × List Char)
    (resolve : List Char → List Char → List Char)
    (u : List Char) : Nat → List Char
  | 0 => u
  | n + 1 =>
    let p := chainURL serve resolve u n
    resolve p (serve p).2

theorem chainURL_shift (serve : List Char → StatusCode × List Char)
    (resolve : List Char → List Char → List Char) (u : List Char) (n : Nat) :
    chainURL serve resolve (resolve u (serve u).2) n = chainURL serve resolve u (n + 1) := by
  induction n with
  | zero => rfl
  | succ k ih => simp [chainURL, ih]

theorem clientGet_all_redirects (c : GClient) (serve : List Char → StatusCode × List Char)
    (resolve : List Char → List Char → List Char) :
    ∀ (n : Nat) (u : List Char) (rc : Nat),
      c.followRedirects = true →
      c.maxRedirects = rc + n →
      (∀ i, i < n → StatusCode.IsRedirect (serve (chainURL serve resolve u i)).1 = true
        ∧ (serve (chainURL serve resolve u i)).2 ≠ []) →
      StatusCode.IsRedirect (serve (chainURL serve resolve u n)).1 = true →
      clientGet c serve resolve u rc = .error .tooManyRedirects := by
  intro n
  induction n with
  | zero =>
    intro u rc hf hmax _ hlast
    have hred : StatusCode.IsRedirect (serve u).1 = true := hlast
    unfold clientGet
    simp [hred, hf, hmax]
  | succ k ih =>
    intro u rc hf hmax hall hlast
    have h0 := hall 0 (Nat.succ_pos k)
    have hred : StatusCode.IsRedirect (serve u).1 = true := h0.1
    have hne : (serve u).2 ≠ [] := h0.2
    have hguard : ¬ c.maxRedirects ≤ rc := by omega
    unfold clientGet
    simp only [hred, if_true, hf, if_neg, dif_neg hguard]
    rw [if_neg (by simp)]
    rw [if_neg hne]
    have := ih (resolve u (serve u).2) (rc + 1) hf (by omega)
      (fun i hi => by
        rw [chainURL_shift]
        exact hall (i + 1) (by omega))
      (by rw [chainURL_shift]; exact hlast)
    exact this

theorem clientGet_chain_success (c : GClient) (serve : List Char → StatusCode × List Char)
    (resolve : List Char → List Char → List Char) :
    ∀ (n : Nat) (u : List Char) (rc : Nat),
      c.followRedirects = true →
      rc + n ≤ c.maxRedirects →
      (∀ i, i < n → StatusCode.IsRedirect (serve (chainURL serve resolve u i)).1 = true
        ∧ (serve (chainURL serve resolve u i)).2 ≠ []) →
      StatusCode.IsRedirect (serve (chainURL serve resolve u n)).1 = false →
      clientGet c serve resolve u rc = .ok (serve (chainURL serve resolve u n)) := by
  intro n
  induction n with
  | zero =>
    intro u rc hf hmax _ hlast
    have hred : StatusCode.IsRedirect (serve u).1 = false := hlast
    unfold clientGet
    simp [hred, chainURL]
  | succ k ih =>
    intro u rc hf hmax hall hlast
    have h0 := hall 0 (Nat.succ_pos k)
    have hred : StatusCode.IsRedirect (serve u).1 = true := h0.1
    have hne : (serve u).2 ≠ [] := h0.2
    have hguard : ¬ c.maxRedirects ≤ rc := by omega
    unfold clientGet
    simp only [hred, if_true, hf, dif_neg hguard]
    rw [if_neg (by simp)]
    rw [if_neg hne]
    have := ih (resolve u (serve u).2) (rc + 1) hf (by omega)
      (fun i hi => by
        rw [chainURL_shift]
        exact hall (i + 1) (by omega))
      (by rw [chainURL_shift]; exact hlast)
    rw [this, chainURL_shift]

/-- C4: with redirect following enabled and `MaxRedirects = 5`, a chain of 6
successive Redirect-category responses fails with `TooManyRedirects`; a
chain of exactly 5 redirects followed by a non-redirect response succeeds
with the response of the 6th fetch; a redirect whose meta string is empty
fails with `RedirectMissingURL`. -/
theorem clientGet_redirect_bounds :
    ∀ (serve : List Char → StatusCode × List Char)
      (resolve : List Char → List Char → List Char) (u : List Char),
      ((∀ i, i < 5 → StatusCode.IsRedirect (serve (chainURL serve resolve u i)).1 = true
          ∧ (serve (chainURL serve resolve u i)).2 ≠ []) →
        StatusCode.IsRedirect (serve (chainURL serve resolve u 5)).1 = true →
        clientGet ⟨true, 5⟩ serve resolve u 0 = .error .tooManyRedirects)
      ∧ ((∀ i, i < 5 → StatusCode.IsRedirect (serve (chainURL serve resolve u i)).1 = true
          ∧ (serve (chainURL serve resolve u i)).2 ≠ []) →
        StatusCode.IsRedirect (serve (chainURL serve resolve u 5)).1 = false →
        clientGet ⟨true, 5⟩ serve resolve u 0 = .ok (serve (chainURL serve resolve u 5)))
      ∧ (StatusCode.IsRedirect (serve u).1 = true → (serve u).2 = [] →
        clientGet ⟨true, 5⟩ serve resolve u 0 = .error .redirectMissingURL) := by
  intro serve resolve u
  refine ⟨?_, ?_, ?_⟩
  · intro hall hlast
    exact clientGet_all_redirects ⟨true, 5⟩ serve resolve 5 u 0 rfl rfl hall hlast
  · intro hall hlast
    exact clientGet_chain_success ⟨true, 5⟩ serve resolve 5 u 0 rfl (by decide) hall hlast
  · intro hred hempty
    unfold clientGet
    simp [hred, hempty]

/-- Witness for C4: an always-redirecting server exhausts the budget; a
server redirecting exactly five times then answering 20 succeeds with that
response; an immediate redirect with empty meta fails for the missing URL. -/
theorem clientGet_redirect_bounds_witness :
    clientGet ⟨true, 5⟩ (fun _ => (30, ['m'])) (fun _ m => m) ['s'] 0
      = .error .tooManyRedirects
    ∧ clientGet ⟨true, 5⟩
        (fun us => if us.length < 6 then ((30 : StatusCode), ['y']) else (20, []))
        (fun b r => b ++ r) ['s'] 0
      = .ok ((fun us => if us.length < 6 then ((30 : StatusCode), ['y']) else (20, []))
          (chainURL (fun us => if us.length < 6 then ((30 : StatusCode), ['y']) else (20, []))
            (fun b r => b ++ r) ['s'] 5))
    ∧ clientGet ⟨true, 5⟩ (fun _ => (30, [])) (fun _ m => m) ['s'] 0
      = .error .redirectMissingURL :=
  ⟨(clientGet_redirect_bounds _ _ _).1 (by decide) (by decide),
   (clientGet_redirect_bounds _ _ _).2.1 (by decide) (by decide),
   (clientGet_redirect_bounds _ _ _).2.2 (by decide) (by decide)⟩

/-! ### TOFU trust store (tofu.go, package protocol) -/

/-- Go type `TrustLevel string`. -/
abbrev TrustLevel := String

def TrustPermanent : TrustLevel := "permanent"

def TrustSession : TrustLevel := "session"

def TrustOnce : TrustLevel := "once"

/-- The `CertificateInfo` struct; `time.Time` fields are abstract instants. -/
structure CertificateInfo where
  fingerprint : String
  firstSeen : Nat
  lastSeen : Nat
  trust : TrustLevel
  notAfter : Nat
  subject : String
  deriving DecidableEq, Repr

/-- The `KnownHosts` struct; the Go `map[string]*CertificateInfo` is an
association list with the map operations `lookupHost` and `insertHost`. -/
structure KnownHosts where
  version : String
  hosts : List (String × CertificateInfo)
  deriving DecidableEq, Repr

/-- Go map read `hosts[hostname]` with its `exists` flag collapsed into
`Option`. -/
def lookupHost : List (String × CertificateInfo) → String → Option CertificateInfo
  | [], _ => none
  | (k, v) :: rest, h => if k = h then some v else lookupHost rest h

/-- Go map write `hosts[hostname] = info`: replace the record of an existing
key, else add the binding. -/
def insertHost : List (String × CertificateInfo) → String → CertificateInfo →
    List (String × CertificateInfo)
  | [], h, i => [(h, i)]
  | (k, v) :: rest, h, i =>
    if k = h then (k, i) :: rest else (k, v) :: insertHost rest h i

/-- The JSON document tree produced by `encoding/json` for the trust-store
file: objects with named fields, strings, and numbers (timestamps). -/
inductive JValue where
  | str (s : String)
  | num (n : Nat)
  | obj (fields : List (String × JValue))

/-- JSON object field lookup by name. -/
def jLookup : List (String × JValue) → String → Option JValue
  | [], _ => none
  | (k, v) :: rest, key => if k = key then some v else jLookup rest key

/-- Read a string field; a missing or non-string field yields Go's zero
value for `string`. -/
def jStr : Option JValue → String
  | some (.str s) => s
  | _ => ""

/-- Read a numeric field; a missing or non-numeric field yields the zero
value. -/
def jNum : Option JValue → Nat
  | some (.num n) => n
  | _ => 0

/-- `json.Marshal` of one `CertificateInfo`, following its struct tags. -/
def marshalCertificateInfo (i : CertificateInfo) : JValue :=
  .obj [("fingerprint", .str i.fingerprint), ("first_seen", .num i.firstSeen),
        ("last_seen", .num i.lastSeen), ("trust", .str i.trust),
        ("not_after", .num i.notAfter), ("subject", .str i.subject)]

/-- `json.Unmarshal` into one `CertificateInfo`. -/
def unmarshalCertificateInfo (j : JValue) : Option CertificateInfo :=
  match j with
  | .obj fields =>
    some { fingerprint := jStr (jLookup fields "fingerprint"),
           firstSeen := jNum (jLookup fields "first_seen"),
           lastSeen := jNum (jLookup fields "last_seen"),
           trust := jStr (jLookup fields "trust"),
           notAfter := jNum (jLookup fields "not_after"),
           subject := jStr (jLookup fields "subject") }
  | _ => none

/-- `json.Unmarshal` of the `hosts` object, one record per field. -/
def unmarshalHosts : List (String × JValue) → Option (List (String × CertificateInfo))
  | [] => some []
  | (k, v) :: rest =>
    match unmarshalCertificateInfo v, unmarshalHosts rest with
    | some i, some tl => some ((k, i) :: tl)
    | _, _ => none

/-- `json.MarshalIndent(v.knownHosts, ...)` in `TOFUVerifier.save`,
following the struct tags of `KnownHosts`. -/
def marshalKnownHosts (kh : KnownHosts) : JValue :=
  .obj [("version", .str kh.version),
        ("hosts", .obj (kh.hosts.map (fun p => (p.1, marshalCertificateInfo p.2))))]

/-- `json.Unmarshal(data, v.knownHosts)` in `TOFUVerifier.Load`. -/
def unmarshalKnownHosts (j : JValue) : Option KnownHosts :=
  match j with
  | .obj fields =>
    match jLookup fields "hosts" with
    | some (.obj hostFields) =>
      match unmarshalHosts hostFields with
      | some hs => some { version := jStr (jLookup fields "version"), hosts := hs }
      | none => none
    | _ => none
  | _ => none

/-- Peer certificate as the TOFU verifier consumes it: raw DER bytes plus
the `NotAfter` and `Subject` fields copied into the record. -/
structure GCert where
  raw : List Nat
  notAfter : Nat
  subject : String

/-- The environment of one `VerifyCertificate` call: the two optional
decision hooks of `TOFUVerifier`, whether the disk write inside `save`
succeeds, and the value of `time.Now()`. -/
structure VerifyEnv where
  onFirstSeen : Option (String → CertificateInfo → Bool × TrustLevel)
  onCertificateChange : Option (String → CertificateInfo → CertificateInfo → Bool × TrustLevel)
  saveOk : Bool
  now : Nat

/-- Outcomes of `VerifyCertificate`, one per `return` in the source. -/
inductive VerifyResult where
  | ok
  /-- "no peer certificates" -/
  | noPeerCertificates
  /-- "certificate rejected by user" -/
  | firstSeenRejected
  /-- "certificate changed and was rejected" -/
  | changedRejected
  /-- "failed to save known hosts" -/
  | saveFailed
  deriving DecidableEq, Repr

/-- The spec's `CertificateRejected` error kind: a first-use or
changed-certificate rejection. -/
def VerifyResult.isCertificateRejected : VerifyResult → Bool
  | .firstSeenRejected => true
  | .changedRejected => true
  | _ => false

/-- The state a `TOFUVerifier` owns: the in-memory map and the content of
the trust-store file on disk (`none` while no save has succeeded). -/
structure VerifierState where
  knownHosts : KnownHosts
  disk : Option JValue

/-- A successful `save`: serialize the whole in-memory store to the file. -/
def persistState (st : VerifierState) : VerifierState :=
  { st with disk := some (marshalKnownHosts st.knownHosts) }

/-- `func (v *TOFUVerifier) VerifyCertificate(hostname string, state
tls.ConnectionState) error`, with the SHA-256 digest abstracted as
`fingerprintOf` and the outcome of each `v.save()` given by `env.saveOk`.
Unknown host: the first-seen hook (accept with Permanent trust when
absent) decides; on accept the record is stored and saved, a save failure
being returned. Known host with differing fingerprint: the change hook
(reject with Once recommendation when absent) decides; on accept the old
`firstSeen` is preserved and the new record stored and saved. Matching
fingerprint: only `lastSeen` is updated and a save failure is swallowed. -/
def VerifyCertificate (fingerprintOf : GCert → String) (env : VerifyEnv)
    (st : VerifierState) (hostname : String) (peerCertificates : List GCert) :
    VerifyResult × VerifierState :=
  match peerCertificates with
  | [] => (.noPeerCertificates, st)
  | cert :: _ =>
    let fingerprint := fingerprintOf cert
    let info : CertificateInfo :=
      { fingerprint := fingerprint, firstSeen := env.now, lastSeen := env.now,
        trust := TrustPermanent, notAfter := cert.notAfter, subject := cert.subject }
    match lookupHost st.knownHosts.hosts hostname with
    | none =>
      let dec := match env.onFirstSeen with
        | none => (true, TrustPermanent)
        | some hook => hook hostname info
      if dec.1 = false then (.firstSeenRejected, st)
      else
        let st' : VerifierState :=
          { st with knownHosts := { st.knownHosts with
              hosts := insertHost st.knownHosts.hosts hostname { info with trust := dec.2 } } }
        if env.saveOk then (.ok, persistState st') else (.saveFailed, st')
    | some known =>
      if known.fingerprint ≠ fingerprint then
        let dec := match env.onCertificateChange with
          | none => (false, TrustOnce)
          | some hook => hook hostname known info
        if dec.1 = false then (.changedRejected, st)
        else
          let st' : VerifierState :=
            { st with knownHosts := { st.knownHosts with
                hosts := insertHost st.knownHosts.hosts hostname
                  { info with firstSeen := known.firstSeen, trust := dec.2 } } }
          if env.saveOk then (.ok, persistState st') else (.saveFailed, st')
      else
        let st' : VerifierState :=
          { st with knownHosts := { st.knownHosts with
              hosts := insertHost st.knownHosts.hosts hostname
                { known with lastSeen := env.now } } }
        (.ok, if env.saveOk then persistState st' else st')

/-- A map write stores the record under the written hostname. -/
theorem lookupHost_insertHost_self :
    ∀ (m : List (String × CertificateInfo)) (h : String) (i : CertificateInfo),
      lookupHost (insertHost m h i) h = some i := by
  intro m h i
  induction m with
  | nil => simp [insertHost, lookupHost]
  | cons p rest ih =>
    obtain ⟨k, v⟩ := p
    by_cases hk : k = h
    · simp [insertHost, lookupHost, hk]
    · simp [insertHost, lookupHost, hk, ih]

/-- A map write leaves every other hostname's record unchanged. -/
theorem lookupHost_insertHost_ne :
    ∀ (m : List (String × CertificateInfo)) (h h' : String) (i : CertificateInfo),
      h' ≠ h → lookupHost (insertHost m h i) h' = lookupHost m h' := by
  intro m h h' i hne
  have hne' : ¬ h = h' := fun hh => hne hh.symm
  induction m with
  | nil => simp [insertHost, lookupHost, hne']
  | cons p rest ih =>
    obtain ⟨k, v⟩ := p
    by_cases hk : k = h
    · subst hk
      simp [insertHost, lookupHost, hne']
    · by_cases hk' : k = h'
      · simp [insertHost, lookupHost, hk, hk', hne]
      · simp [insertHost, lookupHost, hk, hk', ih]

/-- One record survives the encode/decode cycle unchanged. -/
theorem unmarshal_marshal_cert (i : CertificateInfo) :
    unmarshalCertificateInfo (marshalCertificateInfo i) = some i := rfl

/-- The whole hosts object survives the encode/decode cycle unchanged. -/
theorem unmarshalHosts_marshal :
    ∀ l : List (String × CertificateInfo),
      unmarshalHosts (l.map (fun p => (p.1, marshalCertificateInfo p.2))) = some l := by
  intro l
  induction l with
  | nil => rfl
  | cons p rest ih =>
    simp [unmarshalHosts, unmarshal_marshal_cert, ih]

/-- C9: saving the known-hosts map to the persisted file format and
reloading it yields records with identical fingerprint, trust disposition,
and firstSeen/lastSeen timestamps — in fact the identical store. -/
theorem knownHosts_persist_roundtrip :
    ∀ kh : KnownHosts, unmarshalKnownHosts (marshalKnownHosts kh) = some kh := by
  intro ⟨ver, hosts⟩
  have hvh : ("version" : String) ≠ "hosts" := by decide
  simp [marshalKnownHosts, unmarshalKnownHosts, jLookup, hvh, jStr,
        unmarshalHosts_marshal]

/-- A verification whose presented fingerprint matches the stored one
always reports success, whatever the hooks and the save outcome. -/
theorem verify_match_ok_helper :
    ∀ (fingerprintOf : GCert → String) (env : VerifyEnv) (st : VerifierState)
      (hostname : String) (cert : GCert) (rest : List GCert) (known : CertificateInfo),
      lookupHost st.knownHosts.hosts hostname = some known →
      known.fingerprint = fingerprintOf cert →
      (VerifyCertificate fingerprintOf env st hostname (cert :: rest)).1 = .ok := by
  intro f env st hostname cert rest known hl hfp
  simp [VerifyCertificate, hl, hfp]

/-- C1: with a stored record whose fingerprint differs from the presented
one and no change hook installed, `VerifyCertificate` rejects (a
`CertificateRejected`-kind outcome) and leaves the state — the in-memory
map and the disk — exactly as it was; and in general every rejection,
first-use or changed-certificate, leaves the whole state unchanged. -/
theorem verify_changed_reject_no_persist :
    (∀ (fingerprintOf : GCert → String) (env : VerifyEnv) (st : VerifierState)
       (hostname : String) (cert : GCert) (rest : List GCert) (known : CertificateInfo),
       env.onCertificateChange = none →
       lookupHost st.knownHosts.hosts hostname = some known →
       known.fingerprint ≠ fingerprintOf cert →
       VerifyCertificate fingerprintOf env st hostname (cert :: rest) = (.changedRejected, st)
         ∧ VerifyResult.isCertificateRejected .changedRejected = true)
    ∧ (∀ (fingerprintOf : GCert → String) (env : VerifyEnv) (st : VerifierState)
         (hostname : String) (certs : List GCert),
        (VerifyCertificate fingerprintOf env st hostname certs).1.isCertificateRejected = true →
        (VerifyCertificate fingerprintOf env st hostname certs).2 = st) := by
  constructor
  · intro f env st hostname cert rest known hcc hl hne
    refine ⟨?_, rfl⟩
    simp [VerifyCertificate, hl, hne, hcc]
  · intro f env st hostname certs
    unfold VerifyCertificate
    cases certs with
    | nil => intro h; simp [VerifyResult.isCertificateRejected] at h
    | cons cert rest =>
      dsimp only
      cases hl : lookupHost st.knownHosts.hosts hostname with
      | none =>
        dsimp only
        split
        · intro _; rfl
        · split
          · intro h; simp [VerifyResult.isCertificateRejected] at h
          · intro h; simp [VerifyResult.isCertificateRejected] at h
      | some known =>
        dsimp only
        split
        · split
          · intro _; rfl
          · split
            · intro h; simp [VerifyResult.isCertificateRejected] at h
            · intro h; simp [VerifyResult.isCertificateRejected] at h
        · intro h; simp [VerifyResult.isCertificateRejected] at h

/-- C2: a verification whose fingerprint matches the stored record reports
success for any hooks and any save outcome, rewrites only that record's
`lastSeen` field, and leaves every other hostname's record and the store
version untouched. -/
theorem verify_match_updates_lastSeen_only :
    ∀ (fingerprintOf : GCert → String) (env : VerifyEnv) (st : VerifierState)
      (hostname : String) (cert : GCert) (rest : List GCert) (known : CertificateInfo),
      lookupHost st.knownHosts.hosts hostname = some known →
      known.fingerprint = fingerprintOf cert →
      (VerifyCertificate fingerprintOf env st hostname (cert :: rest)).1 = .ok
      ∧ lookupHost
          (VerifyCertificate fingerprintOf env st hostname (cert :: rest)).2.knownHosts.hosts
          hostname
          = some { known with lastSeen := env.now }
      ∧ (∀ h : String, h ≠ hostname →
          lookupHost
            (VerifyCertificate fingerprintOf env st hostname (cert :: rest)).2.knownHosts.hosts
            h
            = lookupHost st.knownHosts.hosts h)
      ∧ (VerifyCertificate fingerprintOf env st hostname (cert :: rest)).2.knownHosts.version
          = st.knownHosts.version := by
  intro f env st hostname cert rest known hl hfp
  have hred :
      (VerifyCertificate f env st hostname (cert :: rest)).2.knownHosts.hosts
        = insertHost st.knownHosts.hosts hostname { known with lastSeen := env.now } := by
    cases hs : env.saveOk <;> simp [VerifyCertificate, hl, hfp, hs, persistState]
  have hver :
      (VerifyCertificate f env st hostname (cert :: rest)).2.knownHosts.version
        = st.knownHosts.version := by
    cases hs : env.saveOk <;> simp [VerifyCertificate, hl, hfp, hs, persistState]
  refine ⟨verify_match_ok_helper f env st hostname cert rest known hl hfp, ?_, ?_, hver⟩
  · rw [hred, lookupHost_insertHost_self]
  · intro h hne
    rw [hred, lookupHost_insertHost_ne _ _ _ _ hne]

/-- C3: the first verification of a hostname with no stored record and no
first-seen hook accepts, stores a record with Permanent trust, persists
the store to disk, and reports success (the disk write succeeding). -/
theorem verify_firstSeen_default_accept :
    ∀ (fingerprintOf : GCert → String) (env : VerifyEnv) (st : VerifierState)
      (hostname : String) (cert : GCert) (rest : List GCert),
      lookupHost st.knownHosts.hosts hostname = none →
      env.onFirstSeen = none →
      env.saveOk = true →
      VerifyCertificate fingerprintOf env st hostname (cert :: rest)
        = (.ok, persistState { st with knownHosts := { st.knownHosts with
            hosts := insertHost st.knownHosts.hosts hostname
              { fingerprint := fingerprintOf cert, firstSeen := env.now,
                lastSeen := env.now, trust := TrustPermanent,
                notAfter := cert.notAfter, subject := cert.subject } } }) := by
  intro f env st hostname cert rest hl hfs hsave
  simp [VerifyCertificate, hl, hfs, hsave]

/-- C10: when an accepted first-seen or changed certificate cannot be saved
to disk, `VerifyCertificate` reports the save failure while the in-memory
map already holds the new record and the disk content is unchanged; a later
verification of the same host and certificate in the same process then
succeeds for any environment, treating the certificate as trusted. -/
theorem verify_saveFailure_keeps_mutation :
    (∀ (fingerprintOf : GCert → String) (env : VerifyEnv) (st : VerifierState)
       (hostname : String) (cert : GCert) (rest : List GCert),
      lookupHost st.knownHosts.hosts hostname = none →
      env.onFirstSeen = none →
      env.saveOk = false →
      (VerifyCertificate fingerprintOf env st hostname (cert :: rest)).1 = .saveFailed
      ∧ (VerifyCertificate fingerprintOf env st hostname (cert :: rest)).2.disk = st.disk
      ∧ lookupHost
          (VerifyCertificate fingerprintOf env st hostname (cert :: rest)).2.knownHosts.hosts
          hostname
          = some { fingerprint := fingerprintOf cert, firstSeen := env.now,
                   lastSeen := env.now, trust := TrustPermanent,
                   notAfter := cert.notAfter, subject := cert.subject }
      ∧ ∀ env' : VerifyEnv,
          (VerifyCertificate fingerprintOf env'
            (VerifyCertificate fingerprintOf env st hostname (cert :: rest)).2
            hostname (cert :: rest)).1 = .ok)
    ∧ (∀ (fingerprintOf : GCert → String) (env : VerifyEnv) (st : VerifierState)
         (hostname : String) (cert : GCert) (rest : List GCert)
         (known : CertificateInfo)
         (hook : String → CertificateInfo → CertificateInfo → Bool × TrustLevel),
      lookupHost st.knownHosts.hosts hostname = some known →
      known.fingerprint ≠ fingerprintOf cert →
      env.onCertificateChange = some hook →
      (hook hostname known
        { fingerprint := fingerprintOf cert, firstSeen := env.now,
          lastSeen := env.now, trust := TrustPermanent,
          notAfter := cert.notAfter, subject := cert.subject }).1 = true →
      env.saveOk = false →
      (VerifyCertificate fingerprintOf env st hostname (cert :: rest)).1 = .saveFailed
      ∧ (VerifyCertificate fingerprintOf env st hostname (cert :: rest)).2.disk = st.disk
      ∧ lookupHost
          (VerifyCertificate fingerprintOf env st hostname (cert :: rest)).2.knownHosts.hosts
          hostname
          = some { fingerprint := fingerprintOf cert, firstSeen := known.firstSeen,
                   lastSeen := env.now,
                   trust := (hook hostname known
                     { fingerprint := fingerprintOf cert, firstSeen := env.now,
                       lastSeen := env.now, trust := TrustPermanent,
                       notAfter := cert.notAfter, subject := cert.subject }).2,
                   notAfter := cert.notAfter, subject := cert.subject }
      ∧ ∀ env' : VerifyEnv,
          (VerifyCertificate fingerprintOf env'
            (VerifyCertificate fingerprintOf env st hostname (cert :: rest)).2
            hostname (cert :: rest)).1 = .ok) := by
  constructor
  · intro f env st hostname cert rest hl hfs hsave
    have hout : VerifyCertificate f env st hostname (cert :: rest)
        = (.saveFailed, { st with knownHosts := { st.knownHosts with
            hosts := insertHost st.knownHosts.hosts hostname
              { fingerprint := f cert, firstSeen := env.now, lastSeen := env.now,
                trust := TrustPermanent, notAfter := cert.notAfter,
                subject := cert.subject } } }) := by
      simp [VerifyCertificate, hl, hfs, hsave]
    refine ⟨by rw [hout], by rw [hout], ?_, ?_⟩
    · rw [hout]
      exact lookupHost_insertHost_self _ _ _
    · intro env'
      apply verify_match_ok_helper f env' _ hostname cert rest
        { fingerprint := f cert, firstSeen := env.now, lastSeen := env.now,
          trust := TrustPermanent, notAfter := cert.notAfter, subject := cert.subject }
      · rw [hout]
        exact lookupHost_insertHost_self _ _ _
      · rfl
  · intro f env st hostname cert rest known hook hl hne hcc hacc hsave
    have hout : VerifyCertificate f env st hostname (cert :: rest)
        = (.saveFailed, { st with knownHosts := { st.knownHosts with
            hosts := insertHost st.knownHosts.hosts hostname
              { fingerprint := f cert, firstSeen := known.firstSeen, lastSeen := env.now,
                trust := (hook hostname known
                  { fingerprint := f cert, firstSeen := env.now, lastSeen := env.now,
                    trust := TrustPermanent, notAfter := cert.notAfter,
                    subject := cert.subject }).2,
                notAfter := cert.notAfter, subject := cert.subject } } }) := by
      simp [VerifyCertificate, hl, hne, hcc, hacc, hsave]
    refine ⟨by rw [hout], by rw [hout], ?_, ?_⟩
    · rw [hout]
      exact lookupHost_insertHost_self _ _ _
    · intro env'
      apply verify_match_ok_helper f env' _ hostname cert rest
        { fingerprint := f cert, firstSeen := known.firstSeen, lastSeen := env.now,
          trust := (hook hostname known
            { fingerprint := f cert, firstSeen := env.now, lastSeen := env.now,
              trust := TrustPermanent, notAfter := cert.notAfter,
              subject := cert.subject }).2,
          notAfter := cert.notAfter, subject := cert.subject }
      · rw [hout]
        exact lookupHost_insertHost_self _ _ _
      · rfl

def sampleKnown : CertificateInfo :=
  { fingerprint := "fpOld", firstSeen := 1, lastSeen := 2,
    trust := TrustPermanent, notAfter := 9, subject := "CN=example" }

def sampleCert : GCert := { raw := [0], notAfter := 9, subject := "CN=example" }

def sampleStore : VerifierState :=
  { knownHosts := { version := "1.0", hosts := [("example.com", sampleKnown)] }, disk := none }

def emptyStore : VerifierState :=
  { knownHosts := { version := "1.0", hosts := [] }, disk := none }

def fpNew : GCert → String := fun _ => "fpNew"

def fpOld : GCert → String := fun _ => "fpOld"

def sampleHook : String → CertificateInfo → CertificateInfo → Bool × TrustLevel :=
  fun _ _ _ => (true, TrustSession)

/-- Witness for C1: a changed fingerprint with no change hook is rejected
and the store, memory and disk, is untouched. -/
theorem verify_changed_reject_no_persist_witness :
    VerifyCertificate fpNew ⟨none, none, true, 7⟩ sampleStore "example.com" [sampleCert]
      = (.changedRejected, sampleStore)
    ∧ VerifyResult.isCertificateRejected .changedRejected = true
    ∧ (VerifyCertificate fpNew ⟨none, none, true, 7⟩ sampleStore "example.com" [sampleCert]).2
      = sampleStore :=
  ⟨(verify_changed_reject_no_persist.1 fpNew ⟨none, none, true, 7⟩ sampleStore
      "example.com" sampleCert [] sampleKnown rfl (by decide) (by decide)).1,
   (verify_changed_reject_no_persist.1 fpNew ⟨none, none, true, 7⟩ sampleStore
      "example.com" sampleCert [] sampleKnown rfl (by decide) (by decide)).2,
   verify_changed_reject_no_persist.2 fpNew ⟨none, none, true, 7⟩ sampleStore
      "example.com" [sampleCert] (by decide)⟩

/-- Witness for C2: a matching fingerprint with a failing disk write still
succeeds, bumping only lastSeen and leaving other hosts alone. -/
theorem verify_match_updates_lastSeen_only_witness :
    (VerifyCertificate fpOld ⟨none, none, false, 7⟩ sampleStore "example.com" [sampleCert]).1
      = .ok
    ∧ lookupHost
        (VerifyCertificate fpOld ⟨none, none, false, 7⟩ sampleStore "example.com"
          [sampleCert]).2.knownHosts.hosts "example.com"
        = some { sampleKnown with lastSeen := 7 }
    ∧ lookupHost
        (VerifyCertificate fpOld ⟨none, none, false, 7⟩ sampleStore "example.com"
          [sampleCert]).2.knownHosts.hosts "other.com"
        = lookupHost sampleStore.knownHosts.hosts "other.com"
    ∧ (VerifyCertificate fpOld ⟨none, none, false, 7⟩ sampleStore "example.com"
        [sampleCert]).2.knownHosts.version = sampleStore.knownHosts.version :=
  ⟨(verify_match_updates_lastSeen_only fpOld ⟨none, none, false, 7⟩ sampleStore
      "example.com" sampleCert [] sampleKnown rfl (by decide)).1,
   (verify_match_updates_lastSeen_only fpOld ⟨none, none, false, 7⟩ sampleStore
      "example.com" sampleCert [] sampleKnown rfl (by decide)).2.1,
   (verify_match_updates_lastSeen_only fpOld ⟨none, none, false, 7⟩ sampleStore
      "example.com" sampleCert [] sampleKnown rfl (by decide)).2.2.1 "other.com" (by decide),
   (verify_match_updates_lastSeen_only fpOld ⟨none, none, false, 7⟩ sampleStore
      "example.com" sampleCert [] sampleKnown rfl (by decide)).2.2.2⟩

/-- Witness for C3: a first verification with no hooks stores a Permanent
record and persists it. -/
theorem verify_firstSeen_default_accept_witness :
    VerifyCertificate fpNew ⟨none, none, true, 7⟩ emptyStore "example.com" [sampleCert]
      = (.ok, persistState { emptyStore with knownHosts := { emptyStore.knownHosts with
          hosts := insertHost emptyStore.knownHosts.hosts "example.com"
            { fingerprint := fpNew sampleCert, firstSeen := 7, lastSeen := 7,
              trust := TrustPermanent, notAfter := sampleCert.notAfter,
              subject := sampleCert.subject } } }) :=
  verify_firstSeen_default_accept fpNew ⟨none, none, true, 7⟩ emptyStore
    "example.com" sampleCert [] rfl rfl rfl

/-- Witness for C10: both accepted-but-unsaved paths report the save
failure yet leave the new record trusted in memory. -/
theorem verify_saveFailure_keeps_mutation_witness :
    ((VerifyCertificate fpNew ⟨none, none, false, 7⟩ emptyStore "example.com"
        [sampleCert]).1 = .saveFailed
      ∧ (VerifyCertificate fpNew ⟨none, none, false, 7⟩ emptyStore "example.com"
          [sampleCert]).2.disk = emptyStore.disk
      ∧ lookupHost
          (VerifyCertificate fpNew ⟨none, none, false, 7⟩ emptyStore "example.com"
            [sampleCert]).2.knownHosts.hosts "example.com"
          = some { fingerprint := fpNew sampleCert, firstSeen := 7, lastSeen := 7,
                   trust := TrustPermanent, notAfter := sampleCert.notAfter,
                   subject := sampleCert.subject }
      ∧ (VerifyCertificate fpNew ⟨none, none, true, 8⟩
          (VerifyCertificate fpNew ⟨none, none, false, 7⟩ emptyStore "example.com"
            [sampleCert]).2
          "example.com" [sampleCert]).1 = .ok)
    ∧ ((VerifyCertificate fpNew ⟨none, some sampleHook, false, 7⟩ sampleStore "example.com"
          [sampleCert]).1 = .saveFailed
      ∧ lookupHost
          (VerifyCertificate fpNew ⟨none, some sampleHook, false, 7⟩ sampleStore "example.com"
            [sampleCert]).2.knownHosts.hosts "example.com"
          = some { fingerprint := fpNew sampleCert, firstSeen := sampleKnown.firstSeen,
                   lastSeen := 7, trust := TrustSession,
                   notAfter := sampleCert.notAfter, subject := sampleCert.subject }
      ∧ (VerifyCertificate fpNew ⟨none, none, true, 8⟩
          (VerifyCertificate fpNew ⟨none, some sampleHook, false, 7⟩ sampleStore "example.com"
            [sampleCert]).2
          "example.com" [sampleCert]).1 = .ok) :=
  ⟨⟨(verify_saveFailure_keeps_mutation.1 fpNew ⟨none, none, false, 7⟩ emptyStore
      "example.com" sampleCert [] rfl rfl rfl).1,
    (verify_saveFailure_keeps_mutation.1 fpNew ⟨none, none, false, 7⟩ emptyStore
      "example.com" sampleCert [] rfl rfl rfl).2.1,
    (verify_saveFailure_keeps_mutation.1 fpNew ⟨none, none, false, 7⟩ emptyStore
      "example.com" sampleCert [] rfl rfl rfl).2.2.1,
    (verify_saveFailure_keeps_mutation.1 fpNew ⟨none, none, false, 7⟩ emptyStore
      "example.com" sampleCert [] rfl rfl rfl).2.2.2 ⟨none, none, true, 8⟩⟩,
   ⟨(verify_saveFailure_keeps_mutation.2 fpNew ⟨none, some sampleHook, false, 7⟩ sampleStore
      "example.com" sampleCert [] sampleKnown sampleHook rfl (by decide) rfl rfl rfl).1,
    (verify_saveFailure_keeps_mutation.2 fpNew ⟨none, some sampleHook, false, 7⟩ sampleStore
      "example.com" sampleCert [] sampleKnown sampleHook rfl (by decide) rfl rfl rfl).2.2.1,
    (verify_saveFailure_keeps_mutation.2 fpNew ⟨none, some sampleHook, false, 7⟩ sampleStore
      "example.com" sampleCert [] sampleKnown sampleHook rfl (by decide) rfl rfl rfl).2.2.2
      ⟨none, none, true, 8⟩⟩⟩
